import Mathlib

/-!
Shallow embedding of the FLASHFAT storage engine
(`src/src/FlashFAT.cpp`, `src/src/FlashFAT.hpp`).

`uint` values are modelled as `Nat`; subtractions on `uint` fields that can
wrap are modelled with `usub32` (mod `2^32` arithmetic), and stores into
narrower fields (`uint16`, `uint8`) truncate with `% 65536` / `% 256`,
mirroring the C integer conversions.  The W25Q64FV transport driver is not
part of `src/`; it is modelled from the spec (section 6) as a byte-addressed
memory with page program, sector erase and a fault oracle deciding the status
of each transport call in order.
-/

set_option maxRecDepth 100000

/-- Maximum number of files (FlashFAT.hpp line 20). -/
def FLASH_FAT_MAX_FILE_COUNT : Nat := 254

/-- Write buffer size in bytes (FlashFAT.hpp line 21). -/
def FLASH_FAT_FILE_BUFFER : Nat := 512

/-- Sentinel for the crash marker `_file_close_err` (FlashFAT.hpp line 22). -/
def FLASH_FAT_NO_ERROR_FILE : Nat := 255

/-- Page size of the medium in bytes (spec: page = 256 bytes). -/
def PAGE_SIZE : Nat := 256

/-- Erase sector size of the medium in bytes (spec: sector = 4096 bytes). -/
def SECTOR_SIZE : Nat := 4096

/-- Modulus of the C `uint` type (32-bit). -/
def U32 : Nat := 4294967296

/-- C `uint` subtraction `a - b` (wraps modulo `2^32`). -/
def usub32 (a b : Nat) : Nat := (a % U32 + U32 - b % U32) % U32

/-- Status of a transport (W25Q64FV driver) call. -/
inductive W25Q64FV_status_t
  | ok
  | failure
deriving DecidableEq, Repr

/-- Return status of FlashFAT operations (FlashFAT.hpp lines 49-56). -/
inductive FlashFAT_status_t
  | OK
  | FLASH_FAILURE
  | MAX_FILE_COUNT_REACHED
  | FILE_ALLOCATION_TABLE_NOT_FOUND
  | WRONG_MODE
  | INVALID_FILE
deriving DecidableEq, Repr

/-- Numeric value of each status enumerator (C enum, first value 0).
`FlashFAT::read` returns `FLASHFAT_WRONG_MODE` through its `uint` return
type, i.e. the number 4. -/
def FlashFAT_status_t.toUint : FlashFAT_status_t → Nat
  | .OK => 0
  | .FLASH_FAILURE => 1
  | .MAX_FILE_COUNT_REACHED => 2
  | .FILE_ALLOCATION_TABLE_NOT_FOUND => 3
  | .WRONG_MODE => 4
  | .INVALID_FILE => 5

/-- System mode (FlashFAT.hpp lines 180-184). -/
inductive FLASHFAT_MODE
  | WRITE_MODE
  | READ_MODE
  | NO_MODE
deriving DecidableEq, Repr

/-- One file entry (FlashFAT.hpp lines 29-33).  `start_page` and
`page_length` are `uint16`, `end_offset` is `uint8`. -/
structure FlashFAT_file_entry where
  start_page : Nat
  page_length : Nat
  end_offset : Nat
deriving DecidableEq, Repr

/-- The file allocation table (FlashFAT.hpp lines 39-43).  The C fixed-size
array `_files[254]` is modelled as a total function; only indices below
`num_files` are meaningful. -/
structure FlashFAT_file_allocation_table where
  num_files : Nat
  file_close_err : Nat
  files : Nat → FlashFAT_file_entry

/-- The byte values of the 8-byte marker string "FLASHFAT". -/
def fatMarker : List Nat := [70, 76, 65, 83, 72, 70, 65, 84]

/-- The five buffer stores of one serialized entry at buffer offset `base`
(FlashFAT.cpp lines 78-87): big-endian `start_page`, big-endian
`page_length`, then `end_offset`; each store truncates to a byte. -/
def entryWrites (e : FlashFAT_file_entry) (base : Nat) : List (Nat × Nat) :=
  [(base, e.start_page / 256 % 256), (base + 1, e.start_page % 256),
   (base + 2, e.page_length / 256 % 256), (base + 3, e.page_length % 256),
   (base + 4, e.end_offset % 256)]

/-- All buffer stores performed by `FlashFAT::write_file_allocation_table`
when serializing `t` (FlashFAT.cpp lines 69-87): the marker at offsets 0-7,
the file count at 8, the crash marker at 9, then 5 bytes per entry starting
at offset 10. -/
def fatWrites (t : FlashFAT_file_allocation_table) : List (Nat × Nat) :=
  ((List.range 8).map (fun i => (i, fatMarker.getD i 0)))
    ++ [(8, t.num_files % 256), (9, t.file_close_err % 256)]
    ++ (List.range t.num_files).flatMap (fun i => entryWrites (t.files i) (10 + 5 * i))

/-- Apply a list of (index, value) stores to a buffer, in order. -/
def applyWrites (ws : List (Nat × Nat)) (buf : Nat → Nat) : Nat → Nat :=
  ws.foldl (fun b w => fun a => if a = w.1 then w.2 else b a) buf

/-- The 256-byte record produced for table `t`: the stores of `fatWrites`
applied over the zeroed buffer (FlashFAT.cpp lines 65-87, `memset` then the
serialization loop). -/
def fatBuffer (t : FlashFAT_file_allocation_table) : Nat → Nat :=
  applyWrites (fatWrites t) (fun _ => 0)

/-- All stores of the serialization land inside the 256-byte record. -/
def fatWritesInBounds (t : FlashFAT_file_allocation_table) : Prop :=
  ∀ w ∈ fatWrites t, w.1 < 256

/-- The marker comparison of `FlashFAT::get_file_allocation_table`
(FlashFAT.cpp line 37): the first 8 bytes equal "FLASHFAT". -/
def markerOk (buf : Nat → Nat) : Bool :=
  (List.range 8).all (fun i => buf i = fatMarker.getD i 0)

/-- Decode one entry at buffer offset `base` (FlashFAT.cpp lines 50-55):
`buffer[index]<<8 | buffer[index+1]` for the two 16-bit fields, then the
offset byte. -/
def decodeEntry (buf : Nat → Nat) (base : Nat) : FlashFAT_file_entry :=
  { start_page := buf base <<< 8 ||| buf (base + 1)
    page_length := buf (base + 2) <<< 8 ||| buf (base + 3)
    end_offset := buf (base + 4) }

/-- Decode the first `n` entries into the entry array `files`
(the loop of FlashFAT.cpp lines 49-56; entry `i` sits at offset `10+5*i`). -/
def decodeFiles (buf : Nat → Nat) (files : Nat → FlashFAT_file_entry) :
    Nat → Nat → FlashFAT_file_entry
  | 0 => files
  | n + 1 => fun i =>
      if i = n then decodeEntry buf (10 + 5 * n) else decodeFiles buf files n i

/-- Decode a table record (FlashFAT.cpp lines 43-56): file count at offset 8,
crash marker at offset 9, then `count` entries, written over the existing
entry array `t.files`. -/
def decodeFAT (buf : Nat → Nat) (t : FlashFAT_file_allocation_table) :
    FlashFAT_file_allocation_table :=
  { num_files := buf 8
    file_close_err := buf 9
    files := decodeFiles buf t.files (buf 8) }

/-- Well-formedness of a table's numeric fields: every field fits its C
integer type. -/
def tableWF (t : FlashFAT_file_allocation_table) : Prop :=
  t.num_files < 256 ∧ t.file_close_err < 256 ∧
    ∀ i, i < t.num_files →
      (t.files i).start_page < 65536 ∧ (t.files i).page_length < 65536 ∧
        (t.files i).end_offset < 256

theorem shiftLeft_lor_eq_add (k : Nat) :
    ∀ a b : Nat, b < 2 ^ k → a <<< k ||| b = a <<< k + b := by
  induction k with
  | zero =>
    intro a b hb
    have hb0 : b = 0 := Nat.lt_one_iff.mp hb
    subst hb0
    simp
  | succ k ih =>
    intro a b hb
    have hdiv : b.div2 < 2 ^ k := by
      rw [Nat.div2_val]
      omega
    have h1 : a <<< (k + 1) = Nat.bit false (a <<< k) := by
      rw [Nat.bit_val, Nat.shiftLeft_succ]
      simp
    have h2 : Nat.bit b.bodd b.div2 = b := Nat.bit_decomp b
    calc a <<< (k + 1) ||| b
        = Nat.bit false (a <<< k) ||| Nat.bit b.bodd b.div2 := by rw [h1, h2]
      _ = Nat.bit (false || b.bodd) ((a <<< k) ||| b.div2) := Nat.lor_bit _ _ _ _
      _ = Nat.bit b.bodd ((a <<< k) + b.div2) := by rw [Bool.false_or, ih _ _ hdiv]
      _ = a <<< (k + 1) + b := by
          have hb2 : b = 2 * b.div2 + b.bodd.toNat :=
            (Nat.bit_decomp b).symm.trans (Nat.bit_val _ _)
          rw [Nat.bit_val, Nat.shiftLeft_succ]
          omega

theorem beCombine_eq (hi lo : Nat) (h : lo < 256) : hi <<< 8 ||| lo = hi * 256 + lo := by
  have h1 := shiftLeft_lor_eq_add 8 hi lo (by omega)
  have h2 : hi <<< 8 = hi * 256 := by
    rw [Nat.shiftLeft_eq]
  omega

/-- Modelled from the spec: the W25Q64FV flash transport (not under `src/`;
spec section 6).  `mem` is the byte-addressed contents of the medium,
`faults` is an environment oracle giving the status of the n-th transport
call, `tick` counts transport calls made so far. -/
structure W25Q64FV where
  mem : Nat → Nat
  faults : Nat → Bool
  tick : Nat

/-- Modelled from the spec: status of the next transport call, consuming one
oracle position. -/
def W25Q64FV.callStatus (f : W25Q64FV) : W25Q64FV_status_t × W25Q64FV :=
  (if f.faults f.tick then .failure else .ok, { f with tick := f.tick + 1 })

/-- Modelled from the spec: `wait_until_free()` blocks until the chip is
free and reports a status. -/
def W25Q64FV.wait_until_free (f : W25Q64FV) : W25Q64FV_status_t × W25Q64FV :=
  f.callStatus

/-- Modelled from the spec: `enable_writing()` sets the write-enable latch
and reports a status. -/
def W25Q64FV.enable_writing (f : W25Q64FV) : W25Q64FV_status_t × W25Q64FV :=
  f.callStatus

/-- Modelled from the spec: `read_page(addr, buf)` reads `PAGE_SIZE` bytes
starting at byte address `addr` into the caller's buffer. -/
def W25Q64FV.read_page (f : W25Q64FV) (addr : Nat) :
    W25Q64FV_status_t × (Nat → Nat) × W25Q64FV :=
  let r := f.callStatus
  (r.1, fun i => f.mem (addr + i), r.2)

/-- Modelled from the spec: `write_page(addr, buf)` programs `PAGE_SIZE`
bytes at byte address `addr`; the device stores byte values.  On a failed
call the medium is left unchanged. -/
def W25Q64FV.write_page (f : W25Q64FV) (addr : Nat) (buf : Nat → Nat) :
    W25Q64FV_status_t × W25Q64FV :=
  let r := f.callStatus
  if r.1 = .ok then
    (r.1, { r.2 with
      mem := fun a => if addr ≤ a ∧ a < addr + 256 then buf (a - addr) % 256 else f.mem a })
  else (r.1, r.2)

/-- Modelled from the spec: `erase_sector(addr)` erases the whole 4096-byte
sector containing `addr`, resetting its bytes to the fill value 255.  On a
failed call the medium is left unchanged. -/
def W25Q64FV.erase_sector (f : W25Q64FV) (addr : Nat) : W25Q64FV_status_t × W25Q64FV :=
  let r := f.callStatus
  if r.1 = .ok then
    (r.1, { r.2 with
      mem := fun a => if addr / 4096 * 4096 ≤ a ∧ a < addr / 4096 * 4096 + 4096
        then 255 else f.mem a })
  else (r.1, r.2)

/-- The FlashFAT engine state: the private members of the `FlashFAT` class
(FlashFAT.hpp lines 186-194) plus the attached flash device. -/
structure FlashFAT where
  flash : W25Q64FV
  table : FlashFAT_file_allocation_table
  mode : FLASHFAT_MODE
  write_buffer : Nat → Nat
  write_buffer_index : Nat
  erase_index : Nat
  current_index : Nat
  end_index : Nat
  file_index : Nat

/-- `FlashFAT::get_file_allocation_table` (FlashFAT.cpp lines 16-59), acting
on the engine's own `_table` as in every call site.  Reads page 0, checks
the marker, and on success decodes count, crash marker and entries. -/
def FlashFAT.get_file_allocation_table (s : FlashFAT) : FlashFAT_status_t × FlashFAT :=
  let w := s.flash.wait_until_free
  let r := w.2.read_page 0
  let s1 : FlashFAT := { s with flash := r.2.2 }
  if r.1 ≠ .ok then (.FLASH_FAILURE, s1)
  else if ¬ markerOk r.2.1 then (.FILE_ALLOCATION_TABLE_NOT_FOUND, s1)
  else (.OK, { s1 with table := decodeFAT r.2.1 s1.table })

/-- `FlashFAT::write_file_allocation_table` (FlashFAT.cpp lines 61-118).
Serializes `t` into a zeroed 256-byte buffer, then waits, write-enables,
erases sector 0 and programs page 0.  Every transport status is checked
only for debug printing; the function returns `FLASHFAT_OK`
unconditionally. -/
def FlashFAT.write_file_allocation_table (s : FlashFAT)
    (t : FlashFAT_file_allocation_table) : FlashFAT_status_t × FlashFAT :=
  let buffer := fatBuffer t
  let f1 := (s.flash.wait_until_free).2
  let f2 := (f1.enable_writing).2
  let f3 := (f2.wait_until_free).2
  let f4 := (f3.erase_sector 0).2
  let f5 := (f4.wait_until_free).2
  let f6 := (f5.enable_writing).2
  let f7 := (f6.wait_until_free).2
  let f8 := (f7.write_page 0 buffer).2
  (.OK, { s with flash := f8 })

/-- `last_used_address` as computed by `FlashFAT::new_file` (FlashFAT.cpp
lines 130-134): one past the previous file's last byte, or 0 when no files
exist. -/
def last_used_address (t : FlashFAT_file_allocation_table) : Nat :=
  if t.num_files = 0 then 0
  else ((t.files (t.num_files - 1)).start_page + (t.files (t.num_files - 1)).page_length) * 256
    + (t.files (t.num_files - 1)).end_offset

/-- `next_start_address` as computed by `FlashFAT::new_file` (FlashFAT.cpp
line 136): `((last_used_address >> 12) + 1) << 12`. -/
def next_start_address (t : FlashFAT_file_allocation_table) : Nat :=
  (last_used_address t >>> 12 + 1) <<< 12

/-- `FlashFAT::new_file` (FlashFAT.cpp lines 120-151).  Appends an entry
whose `start_page` is the next sector-aligned address divided by the page
size (stored into a `uint16`), erases that sector, initializes the write
session, flags the crash marker and persists the table. -/
def FlashFAT.new_file (s : FlashFAT) : FlashFAT_status_t × FlashFAT :=
  if s.mode ≠ .NO_MODE then (.WRONG_MODE, s)
  else if s.table.num_files ≥ FLASH_FAT_MAX_FILE_COUNT then (.MAX_FILE_COUNT_REACHED, s)
  else
    let next := next_start_address s.table
    let fi := s.table.num_files
    let t1 : FlashFAT_file_allocation_table :=
      { s.table with
        num_files := s.table.num_files + 1
        files := fun i => if i = fi then { s.table.files i with start_page := next >>> 8 % 65536 }
          else s.table.files i }
    let f1 := (s.flash.wait_until_free).2
    let f2 := ((f1.erase_sector next)).2
    let t2 : FlashFAT_file_allocation_table := { t1 with file_close_err := fi % 256 }
    let s1 : FlashFAT :=
      { s with
        flash := f2
        table := t2
        file_index := fi
        erase_index := next + 4095
        current_index := next
        mode := .WRITE_MODE }
    s1.write_file_allocation_table t2

/-- The two-page flush loop of `FlashFAT::write` (FlashFAT.cpp lines
244-251): for each page, wait, write-enable, wait, program the page at the
cursor from the write buffer at offset `p*256` (statuses ignored), and
advance the cursor by one page. -/
def writeFlushPages (s : FlashFAT) (p : Nat) : Nat → FlashFAT
  | 0 => s
  | n + 1 =>
    let f1 := (s.flash.wait_until_free).2
    let f2 := (f1.enable_writing).2
    let f3 := (f2.wait_until_free).2
    let r := f3.write_page s.current_index (fun i => s.write_buffer (p * 256 + i))
    writeFlushPages
      { s with flash := r.2, current_index := s.current_index + 256 } (p + 1) n

/-- The buffer flush of `FlashFAT::write` (FlashFAT.cpp lines 232-254):
erase-ahead when `cursor + capacity` would pass the erase frontier (status
ignored), program the buffer's `512/256` pages, reset the buffer index. -/
def writeFlush (s : FlashFAT) : FlashFAT :=
  let s1 :=
    if s.current_index + FLASH_FAT_FILE_BUFFER > s.erase_index then
      { s with
        flash := ((s.flash.erase_sector (s.erase_index + 1))).2
        erase_index := s.erase_index + 4096 }
    else s
  let s2 := writeFlushPages s1 0 (FLASH_FAT_FILE_BUFFER / 256)
  { s2 with write_buffer_index := 0 }

/-- The per-byte loop of `FlashFAT::write` (FlashFAT.cpp lines 226-255):
append each input byte to the write buffer and flush whenever the buffer
reaches its capacity. -/
def writeLoop (s : FlashFAT) : List Nat → FlashFAT
  | [] => s
  | b :: rest =>
    let s1 : FlashFAT :=
      { s with
        write_buffer := fun i => if i = s.write_buffer_index then b % 256 else s.write_buffer i
        write_buffer_index := s.write_buffer_index + 1 }
    let s2 := if s1.write_buffer_index ≥ FLASH_FAT_FILE_BUFFER then writeFlush s1 else s1
    writeLoop s2 rest

/-- `FlashFAT::write` (FlashFAT.cpp lines 221-257).  In the wrong mode,
fails with `FLASHFAT_WRONG_MODE` and no side effect; otherwise runs the
buffered write loop and returns `FLASHFAT_OK` unconditionally — no
transport status inside the loop is examined. -/
def FlashFAT.write (s : FlashFAT) (buffer : List Nat) : FlashFAT_status_t × FlashFAT :=
  if s.mode ≠ .WRITE_MODE then (.WRONG_MODE, s)
  else (.OK, writeLoop s buffer)

/-- The `bytes_to_write` computation for page `p` of the close-time flush
(FlashFAT.cpp lines 176-188): 256 for every page except the last, where it
is `write_buffer_index % 256`, corrected to 256 when that is 0 while the
buffer is nonempty. -/
def closeBytesToWrite (wbi p pages : Nat) : Nat :=
  if p = pages - 1 then
    (if wbi % 256 = 0 ∧ wbi ≠ 0 then 256 else wbi % 256)
  else 256

/-- The page-programming loop of `FlashFAT::close_file` (FlashFAT.cpp lines
174-195): for each page wait, write-enable, wait, program from buffer offset
`p*256`; on a failed program return failure at once (cursor not advanced),
otherwise advance the cursor by `bytes_to_write`. -/
def closeFlushPages (s : FlashFAT) (pages p : Nat) : Nat → W25Q64FV_status_t × FlashFAT
  | 0 => (.ok, s)
  | n + 1 =>
    let btw := closeBytesToWrite s.write_buffer_index p pages
    let f1 := (s.flash.wait_until_free).2
    let f2 := (f1.enable_writing).2
    let f3 := (f2.wait_until_free).2
    let r := f3.write_page s.current_index (fun i => s.write_buffer (p * 256 + i))
    if r.1 ≠ .ok then (.failure, { s with flash := r.2 })
    else
      closeFlushPages
        { s with flash := r.2, current_index := s.current_index + btw } pages (p + 1) n

/-- The buffer close-out of `FlashFAT::close_file` (FlashFAT.cpp lines
158-196): if the buffer is nonempty, pad it with 255 up to its capacity,
apply the erase-ahead check (status ignored), and program
`(index + 255) / 256` pages. -/
def closeFlush (s : FlashFAT) : W25Q64FV_status_t × FlashFAT :=
  if s.write_buffer_index ≠ 0 then
    let s0 : FlashFAT :=
      { s with write_buffer := fun i =>
          if s.write_buffer_index ≤ i ∧ i < FLASH_FAT_FILE_BUFFER then 255
          else s.write_buffer i }
    let s1 : FlashFAT :=
      if s0.current_index + FLASH_FAT_FILE_BUFFER > s0.erase_index then
        { s0 with
          flash := (s0.flash.erase_sector (s0.erase_index + 1)).2
          erase_index := s0.erase_index + 4096 }
      else s0
    let pages := (s1.write_buffer_index + 255) / 256
    closeFlushPages s1 pages 0 pages
  else (.ok, s)

/-- `FlashFAT::close_file` (FlashFAT.cpp lines 153-217).  From Writing mode:
flush the buffer (an aborted program surfaces `FLASHFAT_FLASH_FAILURE` with
the session left as is), finalize the entry (`page_length` from the cursor,
`end_offset` from the buffer index), clear the crash marker, persist the
table, then reset the session fields and return to no mode.  From any other
mode only the reset happens. -/
def FlashFAT.close_file (s : FlashFAT) : FlashFAT_status_t × FlashFAT :=
  if s.mode = .WRITE_MODE then
    let r := closeFlush s
    if r.1 ≠ .ok then (.FLASH_FAILURE, r.2)
    else
      let s1 := r.2
      let e := s1.table.files s1.file_index
      let t1 : FlashFAT_file_allocation_table :=
        { s1.table with
          file_close_err := FLASH_FAT_NO_ERROR_FILE
          files := fun i =>
            if i = s1.file_index then
              { e with
                page_length := usub32 (s1.current_index / 256) e.start_page % 65536
                end_offset := s1.write_buffer_index % 256 }
            else s1.table.files i }
      let r2 := FlashFAT.write_file_allocation_table { s1 with table := t1 } t1
      (.OK, { r2.2 with
        mode := .NO_MODE, write_buffer_index := 0, file_index := 0,
        erase_index := 0, current_index := 0 })
  else
    (.OK, { s with
      mode := .NO_MODE, write_buffer_index := 0, file_index := 0,
      erase_index := 0, current_index := 0 })

/-- `FlashFAT::open_file` (FlashFAT.cpp lines 259-290).  Requires no mode,
reloads the table from the medium, validates the index, then sets the read
session cursor and limit. -/
def FlashFAT.open_file (s : FlashFAT) (fi : Nat) : FlashFAT_status_t × FlashFAT :=
  if s.mode ≠ .NO_MODE then (.WRONG_MODE, s)
  else
    let r := s.get_file_allocation_table
    if r.1 ≠ .OK then (r.1, r.2)
    else
      let s1 := r.2
      if s1.table.num_files ≤ fi then (.INVALID_FILE, s1)
      else
        let e := s1.table.files fi
        (.OK, { s1 with
          mode := .READ_MODE
          file_index := fi
          current_index := e.start_page * 256
          end_index := e.start_page * 256 + e.page_length * 256 + e.end_offset })

/-- `FlashFAT::peek` (FlashFAT.cpp lines 328-339): 0 outside Reading mode,
otherwise the `uint` difference `_end_index - _current_index`. -/
def FlashFAT.peek (s : FlashFAT) : Nat :=
  if s.mode ≠ .READ_MODE then 0 else usub32 s.end_index s.current_index

/-- The while loop of `FlashFAT::read` (FlashFAT.cpp lines 307-324), with
explicit fuel (the loop runs at most `length` iterations since `length`
strictly decreases).  Each iteration reads a whole page at the cursor, then
advances the cursor by the *remaining* `length`, checks the read status
(returning 0 on failure), and copies 256 bytes (or the final `length`
bytes) into the output. -/
def readLoop (fuel : Nat) (s : FlashFAT) (out : List Nat) (length : Nat) :
    FlashFAT × List Nat × Bool :=
  match fuel with
  | 0 => (s, out, true)
  | fuel + 1 =>
    if length > 0 then
      let r := s.flash.read_page s.current_index
      let s1 : FlashFAT := { s with flash := r.2.2, current_index := s.current_index + length }
      if r.1 ≠ .ok then (s1, out, false)
      else if length > 255 then
        readLoop fuel s1 (out ++ (List.range 256).map r.2.1) (length - 256)
      else
        readLoop fuel s1 (out ++ (List.range length).map r.2.1) 0
    else (s, out, true)

/-- `FlashFAT::read` (FlashFAT.cpp lines 292-326).  Outside Reading mode it
returns the number `FLASHFAT_WRONG_MODE` (= 4) through its `uint` return
type; with nothing left it returns 0; otherwise it clamps the length to the
remaining bytes and runs the page loop, returning the clamped length (or 0
after a failed page read). -/
def FlashFAT.read (s : FlashFAT) (length : Nat) : FlashFAT × List Nat × Nat :=
  if s.mode ≠ .READ_MODE then (s, [], FlashFAT_status_t.WRONG_MODE.toUint)
  else if s.peek = 0 then (s, [], 0)
  else
    let len :=
      if s.current_index + length > s.end_index then usub32 s.end_index s.current_index
      else length
    let r := readLoop len s [] len
    if r.2.2 then (r.1, r.2.1, len) else (r.1, r.2.1, 0)

/-- `FlashFAT::delete_last_file` (FlashFAT.cpp lines 341-348).  Outside no
mode it returns `FLASHFAT_INVALID_FILE` (not the mode-mismatch status).
Otherwise it decrements a positive file count and persists the table. -/
def FlashFAT.delete_last_file (s : FlashFAT) : FlashFAT_status_t × FlashFAT :=
  if s.mode ≠ .NO_MODE then (.INVALID_FILE, s)
  else
    let t : FlashFAT_file_allocation_table :=
      { s.table with
        num_files := if s.table.num_files > 0 then s.table.num_files - 1
          else s.table.num_files }
    FlashFAT.write_file_allocation_table { s with table := t } t

/-- `FlashFAT::delete_all_files` (FlashFAT.cpp lines 350-357).  Outside no
mode it returns `FLASHFAT_INVALID_FILE`; otherwise it zeroes the file count
and persists the table. -/
def FlashFAT.delete_all_files (s : FlashFAT) : FlashFAT_status_t × FlashFAT :=
  if s.mode ≠ .NO_MODE then (.INVALID_FILE, s)
  else
    let t : FlashFAT_file_allocation_table := { s.table with num_files := 0 }
    FlashFAT.write_file_allocation_table { s with table := t } t

/-- `FlashFAT::create_file_allocation_table` (FlashFAT.cpp lines 360-364):
zero the file count and persist the table. -/
def FlashFAT.create_file_allocation_table (s : FlashFAT) : FlashFAT_status_t × FlashFAT :=
  let t : FlashFAT_file_allocation_table := { s.table with num_files := 0 }
  FlashFAT.write_file_allocation_table { s with table := t } t

/-- `FlashFAT::begin` (FlashFAT.cpp lines 3-14).  `driverOk` is the status
of `_flash.begin(_cs)`.  After a successful driver start, the table is read;
only the `NOT_FOUND` outcome triggers a bootstrap, and the function returns
`FLASHFAT_OK` regardless of the read outcome. -/
def FlashFAT.begin (driverOk : Bool) (s : FlashFAT) : FlashFAT_status_t × FlashFAT :=
  if ¬ driverOk then (.FLASH_FAILURE, s)
  else
    let r := s.get_file_allocation_table
    if r.1 = .FILE_ALLOCATION_TABLE_NOT_FOUND then
      (.OK, ((r.2).create_file_allocation_table).2)
    else (.OK, r.2)

/-- A fully erased medium (every byte holds the fill value 255). -/
def initMem : Nat → Nat := fun _ => 255

/-- Fault oracle on which every transport call succeeds. -/
def noFaults : Nat → Bool := fun _ => false

/-- Fault oracle on which every transport call fails. -/
def allFaults : Nat → Bool := fun _ => true

/-- The zero-initialized table (static storage in the Arduino build). -/
def emptyTable : FlashFAT_file_allocation_table :=
  { num_files := 0, file_close_err := 0, files := fun _ => ⟨0, 0, 0⟩ }

/-- A freshly constructed engine over an erased medium, with the given fault
oracle (members with static storage are zero-initialized). -/
def initFlashFAT (faults : Nat → Bool) : FlashFAT :=
  { flash := ⟨initMem, faults, 0⟩
    table := emptyTable
    mode := .NO_MODE
    write_buffer := fun _ => 0
    write_buffer_index := 0
    erase_index := 0
    current_index := 0
    end_index := 0
    file_index := 0 }

/-- The round-trip pipeline of the spec's first testable property: on a
fresh erased device, `begin`, `new_file`, `write bs`, `close_file`,
`open_file 0`, then a single full-length `read`; yields the bytes delivered
and the count returned. -/
def writeReadPipeline (bs : List Nat) : List Nat × Nat :=
  let s0 := initFlashFAT noFaults
  let r1 := FlashFAT.begin true s0
  let r2 := (r1.2).new_file
  let r3 := (r2.2).write bs
  let r4 := (r3.2).close_file
  let r5 := (r4.2).open_file 0
  let r6 := (r5.2).read bs.length
  (r6.2.1, r6.2.2)

theorem applyWrites_append (xs ys : List (Nat × Nat)) (b : Nat → Nat) :
    applyWrites (xs ++ ys) b = applyWrites ys (applyWrites xs b) := by
  simp [applyWrites, List.foldl_append]

theorem applyWrites_notin (ws : List (Nat × Nat)) (b : Nat → Nat) (a : Nat)
    (h : ∀ w ∈ ws, w.1 ≠ a) : applyWrites ws b a = b a := by
  induction ws generalizing b with
  | nil => rfl
  | cons w ws ih =>
    have hw : w.1 ≠ a := h w (List.mem_cons_self w ws)
    have hstep : applyWrites (w :: ws) b
        = applyWrites ws (fun x => if x = w.1 then w.2 else b x) := rfl
    rw [hstep, ih _ (fun w' hw' => h w' (List.mem_cons_of_mem _ hw'))]
    simp only [if_neg (fun hh : a = w.1 => hw hh.symm)]

/-- The byte stored for component `k` of a serialized entry. -/
def entryByte (e : FlashFAT_file_entry) : Nat → Nat
  | 0 => e.start_page / 256 % 256
  | 1 => e.start_page % 256
  | 2 => e.page_length / 256 % 256
  | 3 => e.page_length % 256
  | _ => e.end_offset % 256

theorem applyWrites_entry (e : FlashFAT_file_entry) (b : Nat → Nat) (base k : Nat)
    (hk : k < 5) : applyWrites (entryWrites e base) b (base + k) = entryByte e k := by
  interval_cases k <;>
    simp [entryWrites, applyWrites, entryByte, Nat.add_right_cancel_iff]

theorem entryWrites_fst_mem (e : FlashFAT_file_entry) (base : Nat) (w : Nat × Nat)
    (hw : w ∈ entryWrites e base) : base ≤ w.1 ∧ w.1 ≤ base + 4 := by
  simp only [entryWrites, List.mem_cons, List.not_mem_nil, or_false] at hw
  rcases hw with h | h | h | h | h <;> subst h <;> constructor <;> simp

theorem applyWrites_entries (files : Nat → FlashFAT_file_entry) (b : Nat → Nat)
    (n : Nat) : ∀ i k, i < n → k < 5 →
    applyWrites ((List.range n).flatMap (fun j => entryWrites (files j) (10 + 5 * j))) b
      (10 + 5 * i + k) = entryByte (files i) k := by
  induction n with
  | zero => intro i k hi _; exact absurd hi (Nat.not_lt_zero i)
  | succ n ih =>
    intro i k hi hk
    rw [List.range_succ, List.flatMap_append, applyWrites_append]
    have hsingle : (List.flatMap [n] fun j => entryWrites (files j) (10 + 5 * j))
        = entryWrites (files n) (10 + 5 * n) := by simp
    rw [hsingle]
    by_cases hin : i = n
    · subst hin
      exact applyWrites_entry _ _ _ _ hk
    · have hi' : i < n := by omega
      rw [applyWrites_notin _ _ _ ?hmem]
      case hmem =>
        intro w hw
        have hb := entryWrites_fst_mem _ _ _ hw
        omega
      exact ih i k hi' hk

/-- The marker-and-header part of the record: the stores before the entry
loop, applied over the zeroed buffer. -/
def headerBuffer (t : FlashFAT_file_allocation_table) : Nat → Nat :=
  applyWrites (((List.range 8).map (fun i => (i, fatMarker.getD i 0)))
    ++ [(8, t.num_files % 256), (9, t.file_close_err % 256)]) (fun _ => 0)

theorem fatWrites_split (t : FlashFAT_file_allocation_table) :
    fatWrites t = (((List.range 8).map (fun i => (i, fatMarker.getD i 0)))
      ++ [(8, t.num_files % 256), (9, t.file_close_err % 256)])
      ++ (List.range t.num_files).flatMap (fun i => entryWrites (t.files i) (10 + 5 * i)) := by
  simp [fatWrites, List.append_assoc]

theorem fatEntries_fst_ge (t : FlashFAT_file_allocation_table) (w : Nat × Nat)
    (hw : w ∈ (List.range t.num_files).flatMap
      (fun i => entryWrites (t.files i) (10 + 5 * i))) : 10 ≤ w.1 := by
  rw [List.mem_flatMap] at hw
  obtain ⟨j, _, hwj⟩ := hw
  have hb := entryWrites_fst_mem _ _ _ hwj
  omega

theorem fatBuffer_low (t : FlashFAT_file_allocation_table) (a : Nat) (ha : a < 10) :
    fatBuffer t a = headerBuffer t a := by
  rw [fatBuffer, fatWrites_split, applyWrites_append,
    applyWrites_notin _ _ _ (fun w hw => by have := fatEntries_fst_ge t w hw; omega)]
  rfl

theorem fatBuffer_count (t : FlashFAT_file_allocation_table) :
    fatBuffer t 8 = t.num_files % 256 := by
  rw [fatBuffer_low t 8 (by omega)]
  rfl

theorem fatBuffer_crash (t : FlashFAT_file_allocation_table) :
    fatBuffer t 9 = t.file_close_err % 256 := by
  rw [fatBuffer_low t 9 (by omega)]
  rfl

theorem fatBuffer_marker (t : FlashFAT_file_allocation_table) (a : Nat) (ha : a < 8) :
    fatBuffer t a = fatMarker.getD a 0 := by
  rw [fatBuffer_low t a (by omega)]
  interval_cases a <;> rfl

theorem fatBuffer_entry (t : FlashFAT_file_allocation_table) (i k : Nat)
    (hi : i < t.num_files) (hk : k < 5) :
    fatBuffer t (10 + 5 * i + k) = entryByte (t.files i) k := by
  rw [fatBuffer, fatWrites_split, applyWrites_append]
  exact applyWrites_entries t.files _ _ i k hi hk

theorem markerOk_fatBuffer (t : FlashFAT_file_allocation_table) :
    markerOk (fatBuffer t) = true := by
  rw [markerOk, List.all_eq_true]
  intro i hi
  rw [List.mem_range] at hi
  have h := fatBuffer_marker t i hi
  simp [h]

theorem decodeFiles_lt (buf : Nat → Nat) (f : Nat → FlashFAT_file_entry) :
    ∀ n i, i < n → decodeFiles buf f n i = decodeEntry buf (10 + 5 * i) := by
  intro n
  induction n with
  | zero => intro i hi; exact absurd hi (Nat.not_lt_zero i)
  | succ n ih =>
    intro i hi
    by_cases h : i = n
    · subst h; simp [decodeFiles]
    · have hi' : i < n := by omega
      simp only [decodeFiles, if_neg h]
      exact ih i hi'

theorem decodeEntry_fatBuffer (t : FlashFAT_file_allocation_table) (i : Nat)
    (hi : i < t.num_files) (hwf : tableWF t) :
    decodeEntry (fatBuffer t) (10 + 5 * i) = t.files i := by
  obtain ⟨_, _, hf⟩ := hwf
  obtain ⟨hsp, hpl, heo⟩ := hf i hi
  have h0 := fatBuffer_entry t i 0 hi (by omega)
  have h1 := fatBuffer_entry t i 1 hi (by omega)
  have h2 := fatBuffer_entry t i 2 hi (by omega)
  have h3 := fatBuffer_entry t i 3 hi (by omega)
  have h4 := fatBuffer_entry t i 4 hi (by omega)
  rw [Nat.add_zero] at h0
  simp only [entryByte] at h0 h1 h2 h3 h4
  have heta : t.files i
      = ⟨(t.files i).start_page, (t.files i).page_length, (t.files i).end_offset⟩ := rfl
  rw [decodeEntry, heta]
  simp only [FlashFAT_file_entry.mk.injEq]
  refine ⟨?_, ?_, ?_⟩
  · rw [h0, h1,
      beCombine_eq ((t.files i).start_page / 256 % 256) ((t.files i).start_page % 256)
        (Nat.mod_lt _ (by omega))]
    omega
  · rw [h2, h3,
      beCombine_eq ((t.files i).page_length / 256 % 256) ((t.files i).page_length % 256)
        (Nat.mod_lt _ (by omega))]
    omega
  · rw [h4]
    omega

theorem fatWrites_bounds (t : FlashFAT_file_allocation_table)
    (h49 : t.num_files ≤ 49) : fatWritesInBounds t := by
  intro w hw
  rw [fatWrites] at hw
  rcases List.mem_append.mp hw with hw1 | he
  · rcases List.mem_append.mp hw1 with hm | hh
    · rcases List.mem_map.mp hm with ⟨i, hi, rfl⟩
      rw [List.mem_range] at hi
      omega
    · simp only [List.mem_cons, List.not_mem_nil, or_false] at hh
      rcases hh with h | h <;> subst h <;> omega
  · rw [List.mem_flatMap] at he
    obtain ⟨j, hj, hwj⟩ := he
    rw [List.mem_range] at hj
    have hb := entryWrites_fst_mem _ _ _ hwj
    omega

theorem decodeFAT_fatBuffer (t t0 : FlashFAT_file_allocation_table)
    (h49 : t.num_files ≤ 49) (hwf : tableWF t) :
    (decodeFAT (fatBuffer t) t0).num_files = t.num_files ∧
    (decodeFAT (fatBuffer t) t0).file_close_err = t.file_close_err ∧
    (∀ i, i < t.num_files → (decodeFAT (fatBuffer t) t0).files i = t.files i) := by
  have hce : t.file_close_err < 256 := hwf.2.1
  refine ⟨?_, ?_, ?_⟩
  · simp only [decodeFAT]
    rw [fatBuffer_count]
    omega
  · simp only [decodeFAT]
    rw [fatBuffer_crash]
    omega
  · intro i hi
    simp only [decodeFAT]
    rw [fatBuffer_count]
    have hmod : t.num_files % 256 = t.num_files := by omega
    rw [hmod, decodeFiles_lt _ _ _ i hi, decodeEntry_fatBuffer t i hi hwf]

/-- C3 (amended): for every table whose `file_count` is at most 49 and whose
fields fit their C integer types, the allocation-table codec stays inside the
fixed 256-byte record (all serialized stores land at offsets below 256), the
encoded record carries the marker, and decoding an encoded table recovers the
same count, crash marker and entries. -/
theorem C3_codec_roundtrip (t t0 : FlashFAT_file_allocation_table)
    (h49 : t.num_files ≤ 49) (hwf : tableWF t) :
    fatWritesInBounds t ∧
    markerOk (fatBuffer t) = true ∧
    (decodeFAT (fatBuffer t) t0).num_files = t.num_files ∧
    (decodeFAT (fatBuffer t) t0).file_close_err = t.file_close_err ∧
    (∀ i, i < t.num_files → (decodeFAT (fatBuffer t) t0).files i = t.files i) :=
  ⟨fatWrites_bounds t h49, markerOk_fatBuffer t, (decodeFAT_fatBuffer t t0 h49 hwf).1,
    (decodeFAT_fatBuffer t t0 h49 hwf).2.1, (decodeFAT_fatBuffer t t0 h49 hwf).2.2⟩

/-- A table carrying 50 registered files (the compile-time bound is 254). -/
def t50 : FlashFAT_file_allocation_table :=
  { num_files := 50, file_close_err := 0, files := fun _ => ⟨16, 0, 0⟩ }

/-- C3 counterexample: with 50 files the serialization loop stores outside
the 256-byte record (entry 49 occupies offsets 255..259), refuting the claim
for the full range 0..254. -/
theorem C3_counterexample : ¬ fatWritesInBounds t50 := by
  show ¬ ∀ w ∈ fatWrites t50, w.1 < 256
  decide

/-- A small concrete two-file table used to witness the codec theorem. -/
def tWit : FlashFAT_file_allocation_table :=
  { num_files := 2, file_close_err := 255
    files := fun i => if i = 0 then ⟨16, 1, 1⟩ else ⟨32, 300, 44⟩ }

theorem C3_codec_roundtrip_witness :
    tWit.num_files ≤ 49 ∧ tableWF tWit ∧
      fatWritesInBounds tWit ∧
      (decodeFAT (fatBuffer tWit) emptyTable).num_files = tWit.num_files ∧
      (decodeFAT (fatBuffer tWit) emptyTable).files 1 = tWit.files 1 := by
  refine ⟨by decide, ⟨by decide, by decide, by decide⟩, ?_, ?_, ?_⟩
  · exact (C3_codec_roundtrip tWit emptyTable (by decide) ⟨by decide, by decide, by decide⟩).1
  · exact (C3_codec_roundtrip tWit emptyTable (by decide)
      ⟨by decide, by decide, by decide⟩).2.2.1
  · exact (C3_codec_roundtrip tWit emptyTable (by decide)
      ⟨by decide, by decide, by decide⟩).2.2.2.2 1 (by decide)

theorem next_start_spec (t : FlashFAT_file_allocation_table) :
    next_start_address t % 4096 = 0 ∧
    last_used_address t < next_start_address t ∧
    ∀ m, m % 4096 = 0 → last_used_address t < m → next_start_address t ≤ m := by
  have h : next_start_address t = (last_used_address t / 4096 + 1) * 4096 := by
    rw [next_start_address, Nat.shiftRight_eq_div_pow, Nat.shiftLeft_eq]
  rw [h]
  refine ⟨by omega, by omega, ?_⟩
  intro m hm hlt
  omega

theorem new_file_spec (s : FlashFAT) (h1 : s.mode = .NO_MODE)
    (h2 : s.table.num_files < FLASH_FAT_MAX_FILE_COUNT)
    (h3 : next_start_address s.table < 16777216) :
    (s.new_file).1 = .OK ∧
    (s.new_file).2.table.num_files = s.table.num_files + 1 ∧
    ((s.new_file).2.table.files s.table.num_files).start_page * 256
      = next_start_address s.table ∧
    (∀ i, i < s.table.num_files → (s.new_file).2.table.files i = s.table.files i) := by
  have hm : ¬ (s.mode ≠ FLASHFAT_MODE.NO_MODE) := fun hh => hh h1
  have hmax : FLASH_FAT_MAX_FILE_COUNT = 254 := rfl
  have hge : ¬ (s.table.num_files ≥ FLASH_FAT_MAX_FILE_COUNT) := by omega
  have hdiv : next_start_address s.table % 4096 = 0 := (next_start_spec s.table).1
  have hshift : next_start_address s.table >>> 8 = next_start_address s.table / 256 := by
    rw [Nat.shiftRight_eq_div_pow]
  refine ⟨?_, ?_, ?_, ?_⟩
  · simp [FlashFAT.new_file, if_neg hm, if_neg hge, FlashFAT.write_file_allocation_table]
  · simp [FlashFAT.new_file, if_neg hm, if_neg hge, FlashFAT.write_file_allocation_table]
  · simp [FlashFAT.new_file, if_neg hm, if_neg hge, FlashFAT.write_file_allocation_table,
      hshift]
    omega
  · intro i hi
    have hne : i ≠ s.table.num_files := by omega
    simp [FlashFAT.new_file, if_neg hm, if_neg hge, FlashFAT.write_file_allocation_table,
      hne]

/-- C4: with the engine in no mode and the table below the compile-time
bound (and the next allocation inside the 16 MiB range where the `uint16`
page store does not truncate), `new_file` computes the new start address as
the least sector-aligned (4096-multiple) address strictly greater than the
previous file's end byte — with end byte 0 when no files exist — and appends
an entry whose start page encodes exactly that address, leaving the earlier
entries untouched. -/
theorem C4_new_file_allocation (s : FlashFAT) (h1 : s.mode = .NO_MODE)
    (h2 : s.table.num_files < FLASH_FAT_MAX_FILE_COUNT)
    (h3 : next_start_address s.table < 16777216) :
    (s.new_file).1 = .OK ∧
    next_start_address s.table % SECTOR_SIZE = 0 ∧
    last_used_address s.table < next_start_address s.table ∧
    (∀ m, m % SECTOR_SIZE = 0 → last_used_address s.table < m →
      next_start_address s.table ≤ m) ∧
    (s.new_file).2.table.num_files = s.table.num_files + 1 ∧
    ((s.new_file).2.table.files s.table.num_files).start_page * 256
      = next_start_address s.table ∧
    (∀ i, i < s.table.num_files → (s.new_file).2.table.files i = s.table.files i) := by
  have hsec : SECTOR_SIZE = 4096 := rfl
  obtain ⟨ha, hb, hc⟩ := next_start_spec s.table
  obtain ⟨d1, d2, d3, d4⟩ := new_file_spec s h1 h2 h3
  rw [hsec]
  exact ⟨d1, ha, hb, hc, d2, d3, d4⟩

/-- A concrete closed engine holding the two-file table, used as witness
input. -/
def cw4 : FlashFAT := { initFlashFAT noFaults with table := tWit }

theorem C4_new_file_allocation_witness :
    cw4.mode = .NO_MODE ∧ cw4.table.num_files < FLASH_FAT_MAX_FILE_COUNT ∧
      next_start_address cw4.table < 16777216 ∧
      next_start_address cw4.table % SECTOR_SIZE = 0 ∧
      last_used_address cw4.table < next_start_address cw4.table ∧
      ((cw4.new_file).2.table.files cw4.table.num_files).start_page * 256
        = next_start_address cw4.table := by
  refine ⟨rfl, by decide, by decide, ?_, ?_, ?_⟩
  · exact (C4_new_file_allocation cw4 rfl (by decide) (by decide)).2.1
  · exact (C4_new_file_allocation cw4 rfl (by decide) (by decide)).2.2.1
  · exact (C4_new_file_allocation cw4 rfl (by decide) (by decide)).2.2.2.2.2.1

/-- One past the last byte of a file entry's extent:
`(start_page + page_length) * 256 + end_offset`, the quantity
`FlashFAT::new_file` uses as `last_used_address`. -/
def entryEnd (e : FlashFAT_file_entry) : Nat :=
  (e.start_page + e.page_length) * 256 + e.end_offset

/-- The spec's table invariant: every registered entry starts sector-aligned
(its byte address is a multiple of 4096) outside the reserved first sector,
and consecutive entries are strictly ordered without overlap. -/
def tableInv (t : FlashFAT_file_allocation_table) : Prop :=
  (∀ i, i < t.num_files →
    (t.files i).start_page % 16 = 0 ∧ 16 ≤ (t.files i).start_page) ∧
  (∀ i, i + 1 < t.num_files →
    entryEnd (t.files i) < (t.files (i + 1)).start_page * 256)

theorem writeFlushPages_frame (n : Nat) : ∀ (s : FlashFAT) (p : Nat),
    (writeFlushPages s p n).table = s.table ∧
    (writeFlushPages s p n).mode = s.mode ∧
    (writeFlushPages s p n).file_index = s.file_index := by
  induction n with
  | zero => intro s p; exact ⟨rfl, rfl, rfl⟩
  | succ n ih =>
    intro s p
    exact ih _ _

theorem writeFlush_frame (s : FlashFAT) :
    (writeFlush s).table = s.table ∧
    (writeFlush s).mode = s.mode ∧
    (writeFlush s).file_index = s.file_index := by
  rw [writeFlush]
  by_cases h : s.current_index + FLASH_FAT_FILE_BUFFER > s.erase_index <;>
    simp only [if_pos, if_neg, h, if_true, if_false, ite_true, ite_false] <;>
    exact (writeFlushPages_frame _ _ _)

theorem writeLoop_frame (bs : List Nat) : ∀ s : FlashFAT,
    (writeLoop s bs).table = s.table ∧
    (writeLoop s bs).mode = s.mode ∧
    (writeLoop s bs).file_index = s.file_index := by
  induction bs with
  | nil => intro s; exact ⟨rfl, rfl, rfl⟩
  | cons b rest ih =>
    intro s
    rw [writeLoop]
    by_cases h : s.write_buffer_index + 1 ≥ FLASH_FAT_FILE_BUFFER
    · simp only [if_pos h]
      have h1 := ih (writeFlush
        { s with
          write_buffer := fun i => if i = s.write_buffer_index then b % 256 else s.write_buffer i
          write_buffer_index := s.write_buffer_index + 1 })
      have h2 := writeFlush_frame
        { s with
          write_buffer := fun i => if i = s.write_buffer_index then b % 256 else s.write_buffer i
          write_buffer_index := s.write_buffer_index + 1 }
      exact ⟨h1.1.trans h2.1, h1.2.1.trans h2.2.1, h1.2.2.trans h2.2.2⟩
    · simp only [if_neg h]
      exact ih _

theorem readLoop_frame (fuel : Nat) : ∀ (s : FlashFAT) (out : List Nat) (length : Nat),
    (readLoop fuel s out length).1.table = s.table ∧
    (readLoop fuel s out length).1.mode = s.mode := by
  induction fuel with
  | zero => intro s out length; exact ⟨rfl, rfl⟩
  | succ fuel ih =>
    intro s out length
    simp only [readLoop]
    split
    · split
      · exact ⟨by trivial, by trivial⟩
      · split
        · exact ih _ _ _
        · exact ih _ _ _
    · exact ⟨by trivial, by trivial⟩

theorem closeFlushPages_frame (n : Nat) : ∀ (s : FlashFAT) (pages p : Nat),
    (closeFlushPages s pages p n).2.table = s.table ∧
    (closeFlushPages s pages p n).2.file_index = s.file_index ∧
    (closeFlushPages s pages p n).2.write_buffer_index = s.write_buffer_index ∧
    (closeFlushPages s pages p n).2.mode = s.mode := by
  induction n with
  | zero => intro s pages p; exact ⟨rfl, rfl, rfl, rfl⟩
  | succ n ih =>
    intro s pages p
    simp only [closeFlushPages]
    split
    · exact ⟨by trivial, by trivial, by trivial, by trivial⟩
    · exact ih _ _ _

theorem closeFlush_frame (s : FlashFAT) :
    (closeFlush s).2.table = s.table ∧
    (closeFlush s).2.file_index = s.file_index ∧
    (closeFlush s).2.write_buffer_index = s.write_buffer_index ∧
    (closeFlush s).2.mode = s.mode := by
  simp only [closeFlush]
  split
  · split
    · exact closeFlushPages_frame _ _ _ _
    · exact closeFlushPages_frame _ _ _ _
  · exact ⟨by trivial, by trivial, by trivial, by trivial⟩

theorem new_file_preserves_inv (s : FlashFAT) (hInv : tableInv s.table)
    (h3 : next_start_address s.table < 16777216) :
    tableInv (s.new_file).2.table := by
  by_cases h1 : s.mode = .NO_MODE
  · by_cases h2 : s.table.num_files < FLASH_FAT_MAX_FILE_COUNT
    · obtain ⟨d1, d2, d3, d4⟩ := new_file_spec s h1 h2 h3
      obtain ⟨ha, hb, hc⟩ := next_start_spec s.table
      obtain ⟨inv1, inv2⟩ := hInv
      constructor
      · intro i hi
        rw [d2] at hi
        by_cases hin : i = s.table.num_files
        · subst hin
          have hsp := d3
          constructor
          · omega
          · omega
        · have hi' : i < s.table.num_files := by omega
          rw [d4 i hi']
          exact inv1 i hi'
      · intro i hi
        rw [d2] at hi
        by_cases hin : i + 1 = s.table.num_files
        · have hi' : i < s.table.num_files := by omega
          rw [d4 i hi']
          have hnext : ((s.new_file).2.table.files (i + 1)).start_page * 256
              = next_start_address s.table := by rw [hin]; exact d3
          rw [hnext]
          have hip : s.table.num_files - 1 = i := by omega
          have hlast : last_used_address s.table = entryEnd (s.table.files i) := by
            rw [last_used_address, if_neg (by omega : ¬ s.table.num_files = 0), hip, entryEnd]
          omega
        · have hi1 : i + 1 < s.table.num_files := by omega
          rw [d4 i (by omega), d4 (i + 1) hi1]
          exact inv2 i hi1
    · have hge : s.table.num_files ≥ FLASH_FAT_MAX_FILE_COUNT := by omega
      have hmm : ¬ (s.mode ≠ FLASHFAT_MODE.NO_MODE) := fun hh => hh h1
      simp only [FlashFAT.new_file, if_neg hmm, if_pos hge]
      exact hInv
  · have hmm : s.mode ≠ FLASHFAT_MODE.NO_MODE := h1
    simp only [FlashFAT.new_file, if_pos hmm]
    exact hInv

theorem close_file_preserves_inv (s : FlashFAT) (hInv : tableInv s.table)
    (hfi : s.table.num_files ≤ s.file_index + 1) :
    tableInv (s.close_file).2.table := by
  by_cases hmode : s.mode = .WRITE_MODE
  · have hT := (closeFlush_frame s).1
    have hF := (closeFlush_frame s).2.1
    simp only [FlashFAT.close_file, if_pos hmode, FlashFAT.write_file_allocation_table]
    split
    · exact hT ▸ hInv
    · dsimp only
      rw [hT, hF]
      obtain ⟨inv1, inv2⟩ := hInv
      constructor
      · intro i hi
        dsimp only at hi ⊢
        by_cases h : i = s.file_index
        · subst h
          simp only [if_pos rfl]
          exact inv1 _ hi
        · simp only [if_neg h]
          exact inv1 i hi
      · intro i hi
        dsimp only at hi ⊢
        have h1 : ¬ i = s.file_index := by omega
        simp only [if_neg h1]
        by_cases h2 : i + 1 = s.file_index
        · simp only [if_pos h2]
          have hrw : s.file_index = i + 1 := h2.symm
          rw [hrw]
          exact inv2 i hi
        · simp only [if_neg h2]
          exact inv2 i hi
  · simp only [FlashFAT.close_file, if_neg hmode]
    exact hInv

theorem delete_last_preserves_inv (s : FlashFAT) (hInv : tableInv s.table) :
    tableInv (s.delete_last_file).2.table := by
  simp only [FlashFAT.delete_last_file, FlashFAT.write_file_allocation_table]
  split
  · exact hInv
  · obtain ⟨inv1, inv2⟩ := hInv
    constructor
    · intro i hi
      dsimp only at hi
      refine inv1 i ?_
      by_cases h : s.table.num_files > 0 <;>
        simp only [if_pos, if_neg, h, ite_true, ite_false] at hi <;> omega
    · intro i hi
      dsimp only at hi
      refine inv2 i ?_
      by_cases h : s.table.num_files > 0 <;>
        simp only [if_pos, if_neg, h, ite_true, ite_false] at hi <;> omega

theorem delete_all_preserves_inv (s : FlashFAT) (hInv : tableInv s.table) :
    tableInv (s.delete_all_files).2.table := by
  simp only [FlashFAT.delete_all_files, FlashFAT.write_file_allocation_table]
  split
  · exact hInv
  · constructor
    · intro i hi
      dsimp only at hi
      exact absurd hi (by omega)
    · intro i hi
      dsimp only at hi
      exact absurd hi (by omega)

theorem create_preserves_inv (s : FlashFAT) :
    tableInv (s.create_file_allocation_table).2.table := by
  simp only [FlashFAT.create_file_allocation_table, FlashFAT.write_file_allocation_table]
  constructor
  · intro i hi
    dsimp only at hi
    exact absurd hi (by omega)
  · intro i hi
    dsimp only at hi
    exact absurd hi (by omega)

theorem write_table_eq (s : FlashFAT) (bs : List Nat) :
    (s.write bs).2.table = s.table := by
  rw [FlashFAT.write]
  split
  · rfl
  · exact (writeLoop_frame bs s).1

theorem read_table_eq (s : FlashFAT) (len : Nat) :
    (s.read len).1.table = s.table := by
  simp only [FlashFAT.read]
  split
  · rfl
  · split
    · rfl
    · split
      · split
        · exact (readLoop_frame _ _ _ _).1
        · exact (readLoop_frame _ _ _ _).1
      · split
        · exact (readLoop_frame _ _ _ _).1
        · exact (readLoop_frame _ _ _ _).1

theorem decode_preserves_inv (t t0 : FlashFAT_file_allocation_table)
    (hWF : tableWF t) (h49 : t.num_files ≤ 49) (hI : tableInv t) :
    tableInv (decodeFAT (fatBuffer t) t0) := by
  obtain ⟨hnum, _, hfiles⟩ := decodeFAT_fatBuffer t t0 h49 hWF
  obtain ⟨inv1, inv2⟩ := hI
  constructor
  · intro i hi
    rw [hnum] at hi
    rw [hfiles i hi]
    exact inv1 i hi
  · intro i hi
    rw [hnum] at hi
    rw [hfiles i (by omega), hfiles (i + 1) hi]
    exact inv2 i hi

/-- C8: the table invariant — entries sector-aligned outside the reserved
first sector, strictly ordered and non-overlapping — is preserved by every
operation: by `new_file` (when the next allocation address fits the 16 MiB
range where the `uint16` page store does not truncate), by `close_file`
(when the active index points at the last entry, as every write session
establishes), by both delete operations and the table bootstrap, while
`write` and `read` do not touch the table at all and reloading a persisted
well-formed table preserves it as well. -/
theorem C8_invariant_preservation (s : FlashFAT) (bs : List Nat) (len : Nat)
    (t t0 : FlashFAT_file_allocation_table) (hInv : tableInv s.table) :
    (next_start_address s.table < 16777216 → tableInv (s.new_file).2.table) ∧
    (s.table.num_files ≤ s.file_index + 1 → tableInv (s.close_file).2.table) ∧
    tableInv (s.delete_last_file).2.table ∧
    tableInv (s.delete_all_files).2.table ∧
    tableInv (s.create_file_allocation_table).2.table ∧
    (s.write bs).2.table = s.table ∧
    (s.read len).1.table = s.table ∧
    (tableWF t → t.num_files ≤ 49 → tableInv t →
      tableInv (decodeFAT (fatBuffer t) t0)) :=
  ⟨fun h3 => new_file_preserves_inv s hInv h3,
   fun hfi => close_file_preserves_inv s hInv hfi,
   delete_last_preserves_inv s hInv,
   delete_all_preserves_inv s hInv,
   create_preserves_inv s,
   write_table_eq s bs,
   read_table_eq s len,
   fun a b c => decode_preserves_inv t t0 a b c⟩

/-- A concrete closed engine over the two-file table whose session index
points at the last entry. -/
def cw8 : FlashFAT := { initFlashFAT noFaults with table := tWit, file_index := 1 }

theorem C8_invariant_preservation_witness :
    tableInv cw8.table ∧
    (next_start_address cw8.table < 16777216 ∧ tableInv (cw8.new_file).2.table) ∧
    (cw8.table.num_files ≤ cw8.file_index + 1 ∧ tableInv (cw8.close_file).2.table) ∧
    tableInv (cw8.delete_last_file).2.table ∧
    (cw8.write [1, 2, 3]).2.table = cw8.table ∧
    (tableWF tWit ∧ tWit.num_files ≤ 49 ∧ tableInv (decodeFAT (fatBuffer tWit) tWit)) := by
  have hord : ∀ i, i + 1 < cw8.table.num_files →
      entryEnd (cw8.table.files i) < (cw8.table.files (i + 1)).start_page * 256 := by
    intro i hi
    have h2 : cw8.table.num_files = 2 := rfl
    rw [h2] at hi
    have h0 : i = 0 := by omega
    subst h0
    decide
  have hInv : tableInv cw8.table := ⟨by decide, hord⟩
  refine ⟨hInv, ⟨by decide, ?_⟩, ⟨by decide, ?_⟩, ?_, ?_, ⟨⟨by decide, by decide, by decide⟩,
    by decide, ?_⟩⟩
  · exact (C8_invariant_preservation cw8 [1, 2, 3] 0 tWit tWit hInv).1 (by decide)
  · exact (C8_invariant_preservation cw8 [1, 2, 3] 0 tWit tWit hInv).2.1 (by decide)
  · exact (C8_invariant_preservation cw8 [1, 2, 3] 0 tWit tWit hInv).2.2.1
  · exact (C8_invariant_preservation cw8 [1, 2, 3] 0 tWit tWit hInv).2.2.2.2.2.1
  · exact (C8_invariant_preservation cw8 [1, 2, 3] 0 tWit tWit hInv).2.2.2.2.2.2.2
      ⟨by decide, by decide, by decide⟩ (by decide) hInv

/-- C5 (amended): every public operation invoked in the wrong session mode
rejects before doing anything, leaving the entire engine state (in-memory
table, medium, session fields) untouched; `write`, `read`, `new_file` and
`open_file` reject with the mode-mismatch status `FLASHFAT_WRONG_MODE`
(`read` returning its numeric value 4), while `delete_last_file` and
`delete_all_files` reject with `FLASHFAT_INVALID_FILE` instead. -/
theorem C5_wrong_mode_rejections (s : FlashFAT) (bs : List Nat) (len fi : Nat) :
    (s.mode ≠ .WRITE_MODE → s.write bs = (.WRONG_MODE, s)) ∧
    (s.mode ≠ .READ_MODE → s.read len = (s, [], FlashFAT_status_t.WRONG_MODE.toUint)) ∧
    (s.mode ≠ .NO_MODE → s.new_file = (.WRONG_MODE, s)) ∧
    (s.mode ≠ .NO_MODE → s.open_file fi = (.WRONG_MODE, s)) ∧
    (s.mode ≠ .NO_MODE → s.delete_last_file = (.INVALID_FILE, s)) ∧
    (s.mode ≠ .NO_MODE → s.delete_all_files = (.INVALID_FILE, s)) := by
  refine ⟨?_, ?_, ?_, ?_, ?_, ?_⟩ <;> intro h
  · rw [FlashFAT.write, if_pos h]
  · rw [FlashFAT.read, if_pos h]
  · rw [FlashFAT.new_file, if_pos h]
  · rw [FlashFAT.open_file, if_pos h]
  · rw [FlashFAT.delete_last_file, if_pos h]
  · rw [FlashFAT.delete_all_files, if_pos h]

/-- A freshly constructed engine forced into Reading mode. -/
def cexRead : FlashFAT := { initFlashFAT noFaults with mode := .READ_MODE }

/-- A Writing-mode engine over the all-faults oracle whose erase frontier
forces the erase-ahead call. -/
def cexWrite : FlashFAT :=
  { initFlashFAT allFaults with
    mode := .WRITE_MODE, erase_index := 0, current_index := 4096 }

/-- C5 counterexample: in Reading mode the delete operations reject with
`FLASHFAT_INVALID_FILE`, which is not the mode-mismatch status
`FLASHFAT_WRONG_MODE`, refuting the claim that every wrongly-moded
operation fails with WrongMode. -/
theorem C5_counterexample :
    (cexRead.delete_last_file).1 = .INVALID_FILE ∧
    (cexRead.delete_all_files).1 = .INVALID_FILE ∧
    FlashFAT_status_t.INVALID_FILE ≠ FlashFAT_status_t.WRONG_MODE :=
  ⟨rfl, rfl, by decide⟩

theorem C5_wrong_mode_rejections_witness :
    (cexRead.mode ≠ .WRITE_MODE ∧ cexRead.write [1] = (.WRONG_MODE, cexRead)) ∧
    (cexWrite.mode ≠ .READ_MODE ∧
      cexWrite.read 5 = (cexWrite, [], FlashFAT_status_t.WRONG_MODE.toUint)) ∧
    (cexRead.mode ≠ .NO_MODE ∧ cexRead.new_file = (.WRONG_MODE, cexRead)) ∧
    (cexRead.mode ≠ .NO_MODE ∧ cexRead.open_file 0 = (.WRONG_MODE, cexRead)) ∧
    (cexRead.mode ≠ .NO_MODE ∧ cexRead.delete_last_file = (.INVALID_FILE, cexRead)) ∧
    (cexRead.mode ≠ .NO_MODE ∧ cexRead.delete_all_files = (.INVALID_FILE, cexRead)) :=
  ⟨⟨by decide, (C5_wrong_mode_rejections cexRead [1] 5 0).1 (by decide)⟩,
   ⟨by decide, (C5_wrong_mode_rejections cexWrite [1] 5 0).2.1 (by decide)⟩,
   ⟨by decide, (C5_wrong_mode_rejections cexRead [1] 5 0).2.2.1 (by decide)⟩,
   ⟨by decide, (C5_wrong_mode_rejections cexRead [1] 5 0).2.2.2.1 (by decide)⟩,
   ⟨by decide, (C5_wrong_mode_rejections cexRead [1] 5 0).2.2.2.2.1 (by decide)⟩,
   ⟨by decide, (C5_wrong_mode_rejections cexRead [1] 5 0).2.2.2.2.2 (by decide)⟩⟩

/-- C6 (amended): `write` in Writing mode returns `FLASHFAT_OK` no matter
what its transport calls report — the statuses of the erase-ahead and page
program calls inside the flush loop are never examined, so a transport
failure during `write` is silently ignored rather than surfaced — and the
session stays in Writing mode. -/
theorem C6_write_ignores_transport (s : FlashFAT) (bs : List Nat)
    (h : s.mode = .WRITE_MODE) :
    (s.write bs).1 = .OK ∧ (s.write bs).2.mode = .WRITE_MODE := by
  rw [FlashFAT.write, if_neg (fun hh => hh h)]
  exact ⟨rfl, (writeLoop_frame bs s).2.1.trans h⟩

theorem C6_write_ignores_transport_witness :
    cexWrite.mode = .WRITE_MODE ∧
    (cexWrite.write (List.replicate 512 0)).1 = .OK ∧
    (cexWrite.write (List.replicate 512 0)).2.mode = .WRITE_MODE :=
  ⟨rfl, (C6_write_ignores_transport cexWrite (List.replicate 512 0) rfl).1,
    (C6_write_ignores_transport cexWrite (List.replicate 512 0) rfl).2⟩

/-- A Writing-mode engine on the all-faults oracle whose buffer is one byte
short of full, so the next written byte triggers the flush. -/
def cexFlush : FlashFAT :=
  { initFlashFAT allFaults with
    mode := .WRITE_MODE, erase_index := 0, current_index := 4096,
    write_buffer_index := 511 }

/-- C6 counterexample: a write that fills the buffer on the all-faults
oracle makes nine transport calls (one erase-ahead, then
wait/enable/wait/program for each of the two pages), every one of which
fails, yet `write` returns OK instead of aborting with a transport error. -/
theorem C6_counterexample :
    allFaults 0 = true ∧
    (cexFlush.write [0]).1 = .OK ∧
    (cexFlush.write [0]).2.flash.tick = 9 := by
  refine ⟨rfl, rfl, by decide⟩

/-- C7 (amended): storing the allocation table always returns `FLASHFAT_OK`;
the statuses of the underlying erase and program calls are checked only for
debug printing and are never surfaced to the caller. -/
theorem C7_store_always_ok (s : FlashFAT) (t : FlashFAT_file_allocation_table) :
    (s.write_file_allocation_table t).1 = .OK := rfl

/-- C7 counterexample: on the all-faults oracle the sector erase (transport
call 3) and the page program (transport call 7) both fail, yet storing the
table reports OK rather than a transport error. -/
theorem C7_counterexample :
    allFaults 3 = true ∧ allFaults 7 = true ∧
    (FlashFAT.write_file_allocation_table (initFlashFAT allFaults) emptyTable).1 = .OK ∧
    (FlashFAT.write_file_allocation_table (initFlashFAT allFaults) emptyTable).2.flash.tick
      = 8 := by
  refine ⟨rfl, rfl, rfl, by decide⟩

/-- C10: when the flash driver's own `begin` succeeds but the subsequent
table read fails with a transport error, `FlashFAT::begin` still returns
`FLASHFAT_OK`: the failure status is neither surfaced nor treated as
"no table", so no fresh table is bootstrapped (exactly two transport calls
happen: the wait and the failed page read), the in-memory table is left
as it was, and the medium is untouched. -/
theorem C10_begin_swallows_read_failure (s : FlashFAT)
    (h : ∀ n, s.flash.faults n = true) :
    (FlashFAT.begin true s).1 = .OK ∧
    (FlashFAT.begin true s).2.table = s.table ∧
    (FlashFAT.begin true s).2.flash.mem = s.flash.mem ∧
    (FlashFAT.begin true s).2.flash.tick = s.flash.tick + 2 := by
  simp [FlashFAT.begin, FlashFAT.get_file_allocation_table, W25Q64FV.wait_until_free,
    W25Q64FV.read_page, W25Q64FV.callStatus, h]

theorem C10_begin_swallows_read_failure_witness :
    (FlashFAT.begin true (initFlashFAT allFaults)).1 = .OK ∧
    (FlashFAT.begin true (initFlashFAT allFaults)).2.table = (initFlashFAT allFaults).table ∧
    (FlashFAT.begin true (initFlashFAT allFaults)).2.flash.tick = 2 :=
  ⟨(C10_begin_swallows_read_failure (initFlashFAT allFaults) (fun _ => rfl)).1,
   (C10_begin_swallows_read_failure (initFlashFAT allFaults) (fun _ => rfl)).2.1,
   (C10_begin_swallows_read_failure (initFlashFAT allFaults) (fun _ => rfl)).2.2.2⟩

/-- An oracle on which every transport call succeeds. -/
def faultFree (f : W25Q64FV) : Prop := ∀ n, f.faults n = false

theorem write_page_faults (f : W25Q64FV) (addr : Nat) (buf : Nat → Nat) :
    ((f.write_page addr buf).2).faults = f.faults := by
  simp only [W25Q64FV.write_page]
  split <;> rfl

theorem erase_sector_faults (f : W25Q64FV) (addr : Nat) :
    ((f.erase_sector addr).2).faults = f.faults := by
  simp only [W25Q64FV.erase_sector]
  split <;> rfl

theorem faultFree_write_page (f : W25Q64FV) (addr : Nat) (buf : Nat → Nat)
    (h : faultFree f) : faultFree (f.write_page addr buf).2 := by
  intro n
  rw [write_page_faults]
  exact h n

theorem faultFree_erase_sector (f : W25Q64FV) (addr : Nat) (h : faultFree f) :
    faultFree (f.erase_sector addr).2 := by
  intro n
  rw [erase_sector_faults]
  exact h n

theorem write_page_status_ok (f : W25Q64FV) (addr : Nat) (buf : Nat → Nat)
    (h : faultFree f) : (f.write_page addr buf).1 = .ok := by
  simp [W25Q64FV.write_page, W25Q64FV.callStatus, h f.tick]

theorem closeFlushPages_ok (n : Nat) : ∀ (s : FlashFAT) (pages p : Nat),
    faultFree s.flash →
    (closeFlushPages s pages p n).1 = .ok ∧
    faultFree (closeFlushPages s pages p n).2.flash := by
  induction n with
  | zero => intro s pages p h; exact ⟨rfl, h⟩
  | succ n ih =>
    intro s pages p h
    have hok : ((((s.flash.wait_until_free).2.enable_writing).2.wait_until_free).2.write_page
        s.current_index (fun i => s.write_buffer (p * 256 + i))).1 = .ok :=
      write_page_status_ok _ _ _ (fun m => h m)
    have hff : faultFree ((((s.flash.wait_until_free).2.enable_writing).2.wait_until_free).2.write_page
        s.current_index (fun i => s.write_buffer (p * 256 + i))).2 :=
      faultFree_write_page _ _ _ (fun m => h m)
    simp only [closeFlushPages]
    rw [if_neg (fun hh => hh hok)]
    exact ih _ _ _ hff

theorem closeFlush_ok (s : FlashFAT) (h : faultFree s.flash) :
    (closeFlush s).1 = .ok ∧ faultFree (closeFlush s).2.flash := by
  simp only [closeFlush]
  split
  · split
    · exact closeFlushPages_ok _ _ _ _ (faultFree_erase_sector _ _ (fun m => h m))
    · exact closeFlushPages_ok _ _ _ _ (fun m => h m)
  · exact ⟨rfl, h⟩

theorem applyWrites_lt (ws : List (Nat × Nat)) : ∀ (b : Nat → Nat) (a : Nat),
    (∀ w ∈ ws, w.2 < 256) → b a < 256 → applyWrites ws b a < 256 := by
  induction ws with
  | nil => intro b a _ hb; exact hb
  | cons w ws ih =>
    intro b a hw hb
    have hstep : applyWrites (w :: ws) b
        = applyWrites ws (fun x => if x = w.1 then w.2 else b x) := rfl
    rw [hstep]
    refine ih _ a (fun w' h' => hw w' (List.mem_cons_of_mem _ h')) ?_
    by_cases h : a = w.1
    · simp only [if_pos h]
      exact hw w (List.mem_cons_self w ws)
    · simp only [if_neg h]
      exact hb

theorem fatWrites_values (t : FlashFAT_file_allocation_table) :
    ∀ w ∈ fatWrites t, w.2 < 256 := by
  intro w hw
  rw [fatWrites] at hw
  rcases List.mem_append.mp hw with hw1 | he
  · rcases List.mem_append.mp hw1 with hm | hh
    · rcases List.mem_map.mp hm with ⟨i, hi, rfl⟩
      rw [List.mem_range] at hi
      interval_cases i <;> decide
    · simp only [List.mem_cons, List.not_mem_nil, or_false] at hh
      rcases hh with h | h <;> subst h <;> exact Nat.mod_lt _ (by omega)
  · rw [List.mem_flatMap] at he
    obtain ⟨j, _, hwj⟩ := he
    simp only [entryWrites, List.mem_cons, List.not_mem_nil, or_false] at hwj
    rcases hwj with h | h | h | h | h <;> subst h <;> exact Nat.mod_lt _ (by omega)

theorem fatBuffer_lt (t : FlashFAT_file_allocation_table) (a : Nat) :
    fatBuffer t a < 256 :=
  applyWrites_lt _ _ _ (fatWrites_values t) (by omega)

theorem write_FAT_mem (s : FlashFAT) (t : FlashFAT_file_allocation_table)
    (h : faultFree s.flash) :
    ∀ a, a < 256 → (s.write_file_allocation_table t).2.flash.mem a = fatBuffer t a := by
  intro a ha
  have h' : ∀ n, s.flash.faults n = false := h
  have hmod : fatBuffer t a % 256 = fatBuffer t a := Nat.mod_eq_of_lt (fatBuffer_lt t a)
  simp [FlashFAT.write_file_allocation_table, W25Q64FV.wait_until_free,
    W25Q64FV.enable_writing, W25Q64FV.erase_sector, W25Q64FV.write_page,
    W25Q64FV.callStatus, h', ha, hmod]

/-- The write cursor after `close_file`'s buffer flush: the physical byte
address one past the file's last written byte. -/
def closeCursor (s : FlashFAT) : Nat := (closeFlush s).2.current_index

/-- C9: from Writing mode, with every transport call succeeding and the
session cursor consistent with the active entry (its start byte address at
or below the post-flush cursor, the page count fitting `uint16`, the cursor
within the `uint` range), `close_file` finalizes the active entry with
`page_length = floor((cursor - start_byte_address) / 256)` and
`end_offset = (bytes buffered before padding) mod 256`, clears the crash
marker to the sentinel 255, persists the serialized table into page 0 of
the medium, resets every session field and returns the engine to no mode
with status OK. -/
theorem C9_close_finalization (s : FlashFAT)
    (hmode : s.mode = .WRITE_MODE)
    (hff : faultFree s.flash)
    (hsp : (s.table.files s.file_index).start_page * 256 ≤ closeCursor s)
    (hlen : closeCursor s / 256 - (s.table.files s.file_index).start_page < 65536) :
    (s.close_file).1 = .OK ∧
    (s.close_file).2.mode = .NO_MODE ∧
    (s.close_file).2.write_buffer_index = 0 ∧
    (s.close_file).2.file_index = 0 ∧
    (s.close_file).2.erase_index = 0 ∧
    (s.close_file).2.current_index = 0 ∧
    (s.close_file).2.table.file_close_err = FLASH_FAT_NO_ERROR_FILE ∧
    ((s.close_file).2.table.files s.file_index).page_length
      = (closeCursor s - (s.table.files s.file_index).start_page * 256) / 256 ∧
    ((s.close_file).2.table.files s.file_index).end_offset
      = s.write_buffer_index % 256 ∧
    (∀ a, a < 256 → (s.close_file).2.flash.mem a = fatBuffer (s.close_file).2.table a) := by
  obtain ⟨hok, hff2⟩ := closeFlush_ok s hff
  have hT := (closeFlush_frame s).1
  have hF := (closeFlush_frame s).2.1
  have hW := (closeFlush_frame s).2.2.1
  simp only [closeCursor] at hsp hlen
  simp only [FlashFAT.close_file, if_pos hmode]
  rw [if_neg (fun hh => hh hok)]
  refine ⟨rfl, rfl, rfl, rfl, rfl, rfl, rfl, ?_, ?_, ?_⟩
  · rw [hT, hF]
    simp only [FlashFAT.write_file_allocation_table, closeCursor]
    rw [if_true]
    dsimp only
    simp only [usub32, U32]
    omega
  · rw [hT, hF, hW]
    simp only [FlashFAT.write_file_allocation_table]
    rw [if_true]
  · intro a ha
    exact write_FAT_mem _ _ hff2 a ha

/-- A concrete Writing-mode session: one registered entry starting at
sector 1, three bytes buffered, cursor at the start of the file. -/
def cw9 : FlashFAT :=
  { flash := ⟨initMem, noFaults, 0⟩
    table := { num_files := 1, file_close_err := 0, files := fun _ => ⟨16, 0, 0⟩ }
    mode := .WRITE_MODE
    write_buffer := fun _ => 7
    write_buffer_index := 3
    erase_index := 8191
    current_index := 4096
    end_index := 0
    file_index := 0 }

theorem C9_close_finalization_witness :
    cw9.mode = .WRITE_MODE ∧
    (cw9.table.files cw9.file_index).start_page * 256 ≤ closeCursor cw9 ∧
    closeCursor cw9 / 256 - (cw9.table.files cw9.file_index).start_page < 65536 ∧
    (cw9.close_file).1 = .OK ∧
    (cw9.close_file).2.mode = .NO_MODE ∧
    ((cw9.close_file).2.table.files cw9.file_index).page_length
      = (closeCursor cw9 - (cw9.table.files cw9.file_index).start_page * 256) / 256 ∧
    ((cw9.close_file).2.table.files cw9.file_index).end_offset
      = cw9.write_buffer_index % 256 ∧
    (cw9.close_file).2.table.file_close_err = FLASH_FAT_NO_ERROR_FILE := by
  have hff : faultFree cw9.flash := fun _ => rfl
  refine ⟨rfl, by decide, by decide, ?_, ?_, ?_, ?_, ?_⟩
  · exact (C9_close_finalization cw9 rfl hff (by decide) (by decide)).1
  · exact (C9_close_finalization cw9 rfl hff (by decide) (by decide)).2.1
  · exact (C9_close_finalization cw9 rfl hff (by decide) (by decide)).2.2.2.2.2.2.2.1
  · exact (C9_close_finalization cw9 rfl hff (by decide) (by decide)).2.2.2.2.2.2.2.2.1
  · exact (C9_close_finalization cw9 rfl hff (by decide) (by decide)).2.2.2.2.2.2.1

/-- A 257-byte input (one page plus one byte): 0, 1, ..., 255, 0. -/
def c1Input : List Nat := (List.range 257).map (fun i => i % 256)

/-- C1: round-trip fidelity fails.  Writing the 257-byte sequence
0,1,...,255,0 on a fresh erased device via new_file/write/close_file and
reading it back in full with a single `read` via open_file/read yields the
bytes 0,1,...,255 followed by the padding value 255 — the file's last byte
0 is replaced by 255, because the read loop advances the cursor by the full
remaining length after the first page instead of one page, so the second
page read starts one byte past the correct position. -/
theorem C1_roundtrip_failure :
    writeReadPipeline c1Input
      = ((List.range 256).map (fun i => i % 256) ++ [255], 257) ∧
    (List.range 256).map (fun i => i % 256) ++ [255] ≠ c1Input := by
  constructor
  · decide
  · decide

/-- The 300-byte file content 0, 1, ..., 255, 0, 1, ..., 43. -/
def c2Input : List Nat := (List.range 300).map (fun i => i % 256)

/-- The engine state after writing a 300-byte file on a fresh erased device
and reopening it for reading: cursor 4096, read limit 4396, 300 bytes
remaining. -/
def c2Session : FlashFAT :=
  let s0 := initFlashFAT noFaults
  let r1 := FlashFAT.begin true s0
  let r2 := (r1.2).new_file
  let r3 := (r2.2).write c2Input
  let r4 := (r3.2).close_file
  let r5 := (r4.2).open_file 0
  r5.2

/-- C2: the Reading-session cursor does not advance by the number of bytes
delivered.  With 300 bytes remaining at cursor 4096, `read 300` returns 300
but moves the cursor to 4440 — an advance of 344 (300 on the first loop
iteration plus the remaining 44 on the second) — so afterwards `peek` does
not decrease by the value `read` returned: it underflows the `uint`
subtraction to 4294967252 instead of reaching 0. -/
theorem C2_cursor_overshoot :
    c2Session.current_index = 4096 ∧
    c2Session.peek = 300 ∧
    (c2Session.read 300).2.2 = 300 ∧
    (c2Session.read 300).1.current_index = 4440 ∧
    (c2Session.read 300).1.peek = 4294967252 := by
  refine ⟨by decide, by decide, by decide, by decide, by decide⟩
